import Mathlib

/-!
Shallow embedding of the toll-processing core of `src/main.cpp` (ai-parking).

Files are modelled as `List String` of lines (the C++ code reads them with
`std::getline`, so lines carry no trailing newline); an absent/unopenable file
is `Option.none`.  `double` values are modelled as exact rationals (the
claims under study concern exact decimal arithmetic, not rounding).
`std::map<std::string, _>`
is modelled as an association list with in-place-replacing insert
(`insertAL`), which matches `map::operator[]` assignment for lookup, size and
overwrite behaviour.  Exceptions escaping a function are modelled with
`Except`/`Option`.
-/

deriving instance DecidableEq for Except

/-- Exact rational values, the model of the C++ `double` amounts.  The
doubles of this system hold short decimal currency amounts and rates, which
exact rationals capture; the model carries its own arithmetic so that every
operation evaluates on concrete inputs inside proofs.  Values are kept
reduced (coprime, positive denominator), so structural equality is value
equality. -/
structure Frac where
  num : Int
  den : Nat
  deriving DecidableEq, Repr

/-- The reduced fraction `n / d` for positive `d` (`d = 0` never arises in
the model and is mapped to zero). -/
def Frac.normalize (n : Int) (d : Nat) : Frac :=
  if d = 0 then ⟨0, 1⟩
  else
    let g := n.natAbs.gcd d
    ⟨n / (g : Int), d / g⟩

instance : OfNat Frac n := ⟨⟨(n : Int), 1⟩⟩

/-- Addition of exact rationals. -/
def Frac.add (a b : Frac) : Frac :=
  Frac.normalize (a.num * (b.den : Int) + b.num * (a.den : Int)) (a.den * b.den)

/-- Subtraction of exact rationals. -/
def Frac.sub (a b : Frac) : Frac :=
  Frac.normalize (a.num * (b.den : Int) - b.num * (a.den : Int)) (a.den * b.den)

/-- Multiplication of exact rationals. -/
def Frac.mul (a b : Frac) : Frac :=
  Frac.normalize (a.num * b.num) (a.den * b.den)

/-- Negation of exact rationals (preserves reducedness). -/
def Frac.neg (a : Frac) : Frac :=
  ⟨-a.num, a.den⟩

instance : Add Frac := ⟨Frac.add⟩

instance : Sub Frac := ⟨Frac.sub⟩

instance : Mul Frac := ⟨Frac.mul⟩

instance : Neg Frac := ⟨Frac.neg⟩

instance : LE Frac := ⟨fun a b => a.num * (b.den : Int) ≤ b.num * (a.den : Int)⟩

instance : LT Frac := ⟨fun a b => a.num * (b.den : Int) < b.num * (a.den : Int)⟩

instance (a b : Frac) : Decidable (a ≤ b) :=
  inferInstanceAs (Decidable (a.num * (b.den : Int) ≤ b.num * (a.den : Int)))

instance (a b : Frac) : Decidable (a < b) :=
  inferInstanceAs (Decidable (a.num * (b.den : Int) < b.num * (a.den : Int)))

/-- Scaling by a power of ten, the value `q * 10 ^ e`. -/
def Frac.scale10 (e : Int) (q : Frac) : Frac :=
  if 0 ≤ e then Frac.normalize (q.num * ((10 ^ e.toNat : Nat) : Int)) q.den
  else Frac.normalize q.num (q.den * 10 ^ (-e).toNat)

/-- Characters accepted by `isspace` in the C locale, as skipped by
`istream >> double` and by `std::stod`/`std::stoi`. -/
def isCSpace (c : Char) : Bool :=
  c == ' ' || c == '\t' || c == '\n' || c == '\x0b' || c == '\x0c' || c == '\r'

/-- Value of a string of decimal digit characters, most significant first. -/
def digitsVal (ds : List Char) : ℕ :=
  ds.foldl (fun a c => 10 * a + (c.toNat - 48)) 0

/-- Exponent part of a C decimal floating literal: `e`/`E`, optional sign,
then at least one digit; consumed only when the digits are present (strtod
backtracking).  Returns the exponent and the unconsumed rest. -/
def parseExp : List Char → Option (Int × List Char)
  | c :: rest =>
    if c == 'e' || c == 'E' then
      match rest with
      | '+' :: r2 =>
        let p := r2.span Char.isDigit
        if p.1.isEmpty then none else some ((digitsVal p.1 : Int), p.2)
      | '-' :: r2 =>
        let p := r2.span Char.isDigit
        if p.1.isEmpty then none else some (-(digitsVal p.1 : Int), p.2)
      | r2 =>
        let p := r2.span Char.isDigit
        if p.1.isEmpty then none else some ((digitsVal p.1 : Int), p.2)
    else none
  | [] => none

/-- Unsigned part of a C decimal floating literal: digits with an optional
point and optional exponent; fails when no digit is present.  Hexadecimal,
`inf` and `nan` forms are outside the model scope (the system's sources hold
plain decimals).  Returns the value and the unconsumed rest. -/
def parseUnsignedDouble (cs : List Char) : Option (Frac × List Char) :=
  let ip := cs.span Char.isDigit
  let fp : List Char × List Char :=
    match ip.2 with
    | '.' :: t => t.span Char.isDigit
    | _ => ([], ip.2)
  if ip.1.isEmpty && fp.1.isEmpty then none
  else
    let base : Frac :=
      (⟨(digitsVal ip.1 : Int), 1⟩ : Frac)
        + Frac.normalize (digitsVal fp.1 : Int) (10 ^ fp.1.length)
    match parseExp fp.2 with
    | some er => some (Frac.scale10 er.1 base, er.2)
    | none => some (base, fp.2)

/-- Extraction of a `double` from a character stream, as done by
`istream >> balance` in `TollSystem::loadRegisteredVehicles`: skip C-locale
whitespace, parse an optionally signed decimal; `none` models failbit. -/
def extractDouble (cs : List Char) : Option (Frac × List Char) :=
  match cs.dropWhile isCSpace with
  | '+' :: r => parseUnsignedDouble r
  | '-' :: r => (parseUnsignedDouble r).map (fun p => (-p.1, p.2))
  | r => parseUnsignedDouble r

/-- Model of `std::stod` on the full string: skip whitespace, parse an
optionally signed decimal prefix; `none` models the thrown
`std::invalid_argument` when no conversion can be performed. -/
def stod (s : String) : Option Frac :=
  (extractDouble s.data).map Prod.fst

/-- Model of `std::stoi` (base 10): skip whitespace, optional sign, at least
one decimal digit; `none` models the thrown `std::invalid_argument`. -/
def stoi (s : String) : Option Int :=
  match s.data.dropWhile isCSpace with
  | '+' :: r =>
    let p := r.span Char.isDigit
    if p.1.isEmpty then none else some ((digitsVal p.1 : Int))
  | '-' :: r =>
    let p := r.span Char.isDigit
    if p.1.isEmpty then none else some (-(digitsVal p.1 : Int))
  | r =>
    let p := r.span Char.isDigit
    if p.1.isEmpty then none else some ((digitsVal p.1 : Int))

/-- Characters of a stream up to (and consuming) the first occurrence of the
delimiter `d`; the delimiter itself is dropped. -/
def takeUntil (d : Char) : List Char → List Char × List Char
  | [] => ([], [])
  | c :: cs =>
    if c = d then ([], cs)
    else
      let p := takeUntil d cs
      (c :: p.1, p.2)

/-- Model of `std::getline(stream, tok, d)` on the remaining characters of a
string stream: fails (failbit, `none`) exactly when the stream is already
exhausted; otherwise returns the token before the delimiter and the rest. -/
def getlineD (d : Char) : List Char → Option (List Char × List Char)
  | [] => none
  | c :: cs => some (takeUntil d (c :: cs))

/-- First of two options, the model of trying one lookup and then a second. -/
def firstSome {α : Type} : Option α → Option α → Option α
  | some v, _ => some v
  | none, b => b

/-- Insert for the association-list model of `std::map`: replaces the value
in place when the key is present (as `operator[]` assignment does), otherwise
adds the binding at the end. -/
def insertAL {α : Type} (k : String) (v : α) : List (String × α) → List (String × α)
  | [] => [(k, v)]
  | kv :: rest => if kv.1 = k then (k, v) :: rest else kv :: insertAL k v rest

/-- Lookup in the association-list model of `std::map`. -/
def lookupAL {α : Type} (k : String) : List (String × α) → Option α
  | [] => none
  | kv :: rest => if kv.1 = k then some kv.2 else lookupAL k rest

/-- Keys of an association list, in order. -/
def keysAL {α : Type} (m : List (String × α)) : List String :=
  m.map Prod.fst

/-- Iterated insertion of a sequence of bindings, earliest first. -/
def foldInserts {α : Type} (m : List (String × α)) (σ : List (String × α)) :
    List (String × α) :=
  σ.foldl (fun acc kv => insertAL kv.1 kv.2 acc) m

/-- Key list after folding a binding sequence over a map whose keys are
`ks`: an insert of a fresh key appends it, an insert of a present key leaves
the key list unchanged (the key-level shadow of `foldInserts`). -/
def keysAfter {α : Type} (σ : List (String × α)) (ks : List String) : List String :=
  σ.foldl (fun acc kv => if kv.1 ∈ acc then acc else acc ++ [kv.1]) ks

/-- Value of the last binding with key `k` in a binding sequence. -/
def lastVal {α : Type} (k : String) : List (String × α) → Option α
  | [] => none
  | kv :: σ => firstSome (lastVal k σ) (if kv.1 = k then some kv.2 else none)

/-- One registered vehicle, as built by `Vehicle(plate, rfid, balance, type)`
in `TollSystem::loadRegisteredVehicles`.  The `Vehicle` class body itself is
elided from `src/main.cpp`; only its constructor-argument fields, which the
spec's data model names, are represented. -/
structure Vehicle where
  plate : String
  rfid : String
  balance : Frac
  vtype : String
  deriving DecidableEq, Repr

/-- Modelled from the spec: the `Vehicle` class body is not under `src/`
(the source elides it with a comment); §3 of the spec gives `vehicleClass`
enumerated as car, truck, bus, unknown with unrecognized type strings passing
through as the unknown class. -/
inductive VClass
  | car
  | truck
  | bus
  | unknown
  deriving DecidableEq, Repr

/-- Modelled from the spec: classification of the raw `type` string into the
spec's vehicle-class enumeration (§3, §6: a type outside car/truck/bus is the
unknown class). -/
def classOf (t : String) : VClass :=
  if t = "car" then .car
  else if t = "truck" then .truck
  else if t = "bus" then .bus
  else .unknown

/-- Parse of one registry data row, mirroring the body of the `while` loop of
`TollSystem::loadRegisteredVehicles` (src/main.cpp:190-202):
`getline(plate, ',') && getline(rfid, ',') && (iss >> balance) &&
getline(type, ',')`, short-circuiting on the first failing extraction.
Note that `iss >> balance` stops before the comma that follows the number, so
the subsequent `getline(type, ',')` reads the characters strictly between the
end of the parsed number and the next comma. -/
def rowParse (line : String) : Option Vehicle :=
  match getlineD ',' line.data with
  | none => none
  | some pr =>
    match getlineD ',' pr.2 with
    | none => none
    | some rr =>
      match extractDouble rr.2 with
      | none => none
      | some br =>
        match getlineD ',' br.2 with
        | none => none
        | some tr => some ⟨String.mk pr.1, String.mk rr.1, br.1, String.mk tr.1⟩

/-- One iteration of the registry-load loop: a row that parses is inserted
into the `registeredVehicles` map keyed by its rfid; a malformed row is
skipped. -/
def vehicleStep (reg : List (String × Vehicle)) (line : String) :
    List (String × Vehicle) :=
  match rowParse line with
  | some v => insertAL v.rfid v reg
  | none => reg

/-- Line processing of `TollSystem::loadRegisteredVehicles` on an opened
file: one `getline` consumes the first line unconditionally (the header
skip), then the loop folds `vehicleStep` over the remaining lines.  An empty
file makes both the header `getline` and the loop condition fail at once,
leaving the registry as it was. -/
def loadVehicleLines (reg : List (String × Vehicle)) :
    List String → List (String × Vehicle)
  | [] => reg
  | _ :: rest => rest.foldl vehicleStep reg

/-- Model of `TollSystem::loadRegisteredVehicles` (src/main.cpp:179-204):
an unopenable source logs "Could not open registered vehicles file" to the
error log and returns with the registry untouched; an opened source is
processed by `loadVehicleLines`.  The result is the pair of the registry map
and the error log. -/
def loadRegisteredVehicles (source : Option (List String))
    (reg : List (String × Vehicle)) (errors : List String) :
    List (String × Vehicle) × List String :=
  match source with
  | none => (reg, errors ++ ["Could not open registered vehicles file"])
  | some lines => (loadVehicleLines reg lines, errors)

/-- The rfid-keyed bindings contributed by the data rows of a registry
source, in row order (used to state fold lemmas about the load). -/
def vehSigma (ds : List String) : List (String × Vehicle) :=
  (ds.filterMap rowParse).map (fun v => (v.rfid, v))

/-- The `SystemConfig` struct of src/main.cpp:18-23. -/
structure SystemConfig where
  tollRates : List (String × Frac)
  cameraResolutionWidth : Int
  cameraResolutionHeight : Int
  cameraFPS : Int
  deriving DecidableEq, Repr

/-- A `SystemConfig` with the empty rate map and zeroed camera fields, used
as a concrete starting state in witnesses. -/
def emptyConfig : SystemConfig :=
  ⟨[], 0, 0, 0⟩

/-- One iteration of the `ConfigManager::loadConfig` line loop
(src/main.cpp:122-135): empty and `#`-comment lines are skipped; the line is
split at the first `=` (`getline(key, '=')` then `getline(value)`, either
failing skips the line); a recognized key converts its value with
`std::stod`/`std::stoi`, whose failure throws out of the whole load
(modelled as `Except.error`); unrecognized keys fall off the if-chain and are
ignored. -/
def processConfigLine (cfg : SystemConfig) (line : String) :
    Except String SystemConfig :=
  if line.data.isEmpty || line.data.head? == some '#' then .ok cfg
  else
    match getlineD '=' line.data with
    | none => .ok cfg
    | some kr =>
      match getlineD '\n' kr.2 with
      | none => .ok cfg
      | some vr =>
        let key := String.mk kr.1
        let value := String.mk vr.1
        if key = "toll_rate_car" then
          match stod value with
          | some q => .ok { cfg with tollRates := insertAL "car" q cfg.tollRates }
          | none => .error "stod: invalid argument"
        else if key = "toll_rate_truck" then
          match stod value with
          | some q => .ok { cfg with tollRates := insertAL "truck" q cfg.tollRates }
          | none => .error "stod: invalid argument"
        else if key = "toll_rate_bus" then
          match stod value with
          | some q => .ok { cfg with tollRates := insertAL "bus" q cfg.tollRates }
          | none => .error "stod: invalid argument"
        else if key = "camera_resolution_width" then
          match stoi value with
          | some n => .ok { cfg with cameraResolutionWidth := n }
          | none => .error "stoi: invalid argument"
        else if key = "camera_resolution_height" then
          match stoi value with
          | some n => .ok { cfg with cameraResolutionHeight := n }
          | none => .error "stoi: invalid argument"
        else if key = "camera_fps" then
          match stoi value with
          | some n => .ok { cfg with cameraFPS := n }
          | none => .error "stoi: invalid argument"
        else .ok cfg

/-- The line loop of `ConfigManager::loadConfig` over an opened file: lines
are processed in order; a thrown conversion exception aborts the remainder. -/
def loadConfigLines : List String → SystemConfig → Except String SystemConfig
  | [], cfg => .ok cfg
  | l :: ls, cfg =>
    match processConfigLine cfg l with
    | .ok cfg2 => loadConfigLines ls cfg2
    | .error e => .error e

/-- In-memory effect of `ConfigManager::createDefaultConfig`
(src/main.cpp:138-156): the three default rates are assigned in order car,
truck, bus, and the camera fields are set to 1920, 1080, 30. -/
def createDefaultConfig (cfg : SystemConfig) : SystemConfig :=
  { tollRates :=
      insertAL "bus" 75 (insertAL "truck" 100 (insertAL "car" 50 cfg.tollRates))
    cameraResolutionWidth := 1920
    cameraResolutionHeight := 1080
    cameraFPS := 30 }

/-- The file content `createDefaultConfig` writes to `config/config.txt`,
split into lines. -/
def defaultConfigFileLines : List String :=
  ["# Toll Rates",
   "toll_rate_car=50.0",
   "toll_rate_truck=100.0",
   "toll_rate_bus=75.0",
   "",
   "# Camera Settings",
   "camera_resolution_width=1920",
   "camera_resolution_height=1080",
   "camera_fps=30"]

/-- Model of `ConfigManager::loadConfig` (src/main.cpp:114-136): an absent or
unopenable source (`none`) synthesizes the defaults via
`createDefaultConfig`; otherwise the lines are processed, with a conversion
exception escaping as `Except.error`. -/
def loadConfig (source : Option (List String)) (cfg : SystemConfig) :
    Except String SystemConfig :=
  match source with
  | none => .ok (createDefaultConfig cfg)
  | some lines => loadConfigLines lines cfg

/-- Left-pad with zeros to `k` characters (fraction-digit rendering). -/
def zeroPad (k : ℕ) (s : String) : String :=
  String.mk (List.replicate (k - s.length) '0') ++ s

/-- Rendering of a nonnegative rational by `ostream << double` with the
default settings: integral values print with no decimal point; short decimal
fractions print with the minimal number of fraction digits.  Values needing
more than six fraction digits are outside the model scope (the system logs
short currency amounts) and are rendered as a fraction. -/
def fmtNonneg (q : Frac) : String :=
  if q.den = 1 then toString q.num
  else
    match (List.range 7).find? (fun k => (Frac.scale10 (Int.ofNat k) q).den == 1) with
    | some k =>
      let n := (Frac.scale10 (Int.ofNat k) q).num.toNat
      toString (n / 10 ^ k) ++ "." ++ zeroPad k (toString (n % 10 ^ k))
    | none => toString q.num ++ "/" ++ toString q.den

/-- Rendering of a rational by `ostream << double` with default settings. -/
def fmtQ (q : Frac) : String :=
  if q < 0 then "-" ++ fmtNonneg (-q) else fmtNonneg q

/-- Model of `Logger::logTransaction` (src/main.cpp:80-93).  The transaction
log stream is modelled as the string of characters written so far; `ts` is
the string returned by `std::ctime` for the current time, which by the C
standard is the 24-character date text followed by a newline.  The call
appends the ctime string, then a comma, the vehicle id, the payment method,
the amount and the remaining balance separated by commas, then a newline. -/
def logTransaction (ts vehicleId paymentMethod : String)
    (amount balanceRemaining : Frac) (log : String) : String :=
  log ++ ts ++ "," ++ vehicleId ++ "," ++ paymentMethod ++ ","
      ++ fmtQ amount ++ "," ++ fmtQ balanceRemaining ++ "\n"

/-- The shape of a `std::ctime` result: a fixed 24-character text followed by
a terminating newline. -/
def ctimeShaped (ts : String) : Prop :=
  ts.length = 25 ∧ ts.data.getLast? = some '\n' ∧ (ts.data.take 24).all (· ≠ '\n')

/-- Modelled from the spec: a ledger transaction record (§3); the
wall-clock timestamp captured at write time is outside this deterministic
model and omitted from the record. -/
structure TransactionRecord where
  vehicleIdentifier : String
  paymentMethod : String
  amountCharged : Frac
  balanceRemaining : Frac
  deriving DecidableEq, Repr

/-- Modelled from the spec: the typed transaction result returned to the
caller (§6, collaborator boundary outputs). -/
inductive TollResult
  | accepted (newBalance : Frac)
  | rejectedUnregistered
  | rejectedInsufficientFunds
  deriving DecidableEq, Repr

/-- Modelled from the spec: the typed insufficient-funds failure of the
registry charge operation (§4.2). -/
inductive ChargeError
  | insufficientFunds
  deriving DecidableEq, Repr

/-- Modelled from the spec: `charge(vehicle, amount)` of §4.2 — the charging
code of the repository is not under `src/` (the source elides the remaining
`TollSystem` methods with a comment).  The charge decreases the balance by
`amount` exactly when `balance >= amount`, returning the new balance and the
updated vehicle; otherwise it returns the typed insufficient-funds failure
and no mutation happens. -/
def charge (v : Vehicle) (amount : Frac) : Except ChargeError (Frac × Vehicle) :=
  if v.balance ≥ amount then
    .ok (v.balance - amount, { v with balance := v.balance - amount })
  else .error .insufficientFunds

/-- Modelled from the spec: registry lookup (§4.2) — tries the rfid primary
key first, then the plate as the secondary lookup key. -/
def lookupVehicle (reg : List (String × Vehicle)) (ident : String) :
    Option Vehicle :=
  firstSome (lookupAL ident reg)
    ((reg.find? (fun kv => kv.2.plate == ident)).map Prod.snd)

/-- Modelled from the spec: the in-memory state the Toll Transaction
Processor borrows — the registry map, the transaction ledger records and the
error records (§3 ownership). -/
structure SysState where
  vehicles : List (String × Vehicle)
  transactions : List TransactionRecord
  errors : List String
  deriving DecidableEq, Repr

/-- Modelled from the spec: the Toll Transaction Processor of §4.3 — the
processing code of the repository (`processVehicleByANPR` and the remaining
`TollSystem` methods) is not under `src/`.  Given the resolved rate, the
payment method and the identifier: an unmatched identifier logs one
"unregistered vehicle" failure and touches nothing else; a matched vehicle is
charged, a success appending exactly one transaction record and updating the
registry at the vehicle's rfid key, an insufficient-funds failure logging one
"insufficient balance" record and mutating nothing. -/
def processVehicle (rate : Frac) (method ident : String) (s : SysState) :
    TollResult × SysState :=
  match lookupVehicle s.vehicles ident with
  | none =>
    (.rejectedUnregistered,
      { s with errors := s.errors ++ ["unregistered vehicle: " ++ ident] })
  | some v =>
    match charge v rate with
    | .ok bv =>
      (.accepted bv.1,
        { s with
            vehicles := insertAL v.rfid bv.2 s.vehicles
            transactions := s.transactions ++ [⟨ident, method, rate, bv.1⟩] })
    | .error .insufficientFunds =>
      (.rejectedInsufficientFunds,
        { s with errors := s.errors ++ ["insufficient balance: " ++ ident] })

/-- Per-line effect of the config loop, separated from the configuration
state for the determinism proofs: skip the line, insert one rate, set one
camera field, or throw a conversion error.  `lineAction` mirrors the
dispatch of `processConfigLine` exactly; `interpAction` applies the effect. -/
inductive ConfigAction
  | skip
  | setRate (k : String) (q : Frac)
  | setWidth (n : Int)
  | setHeight (n : Int)
  | setFPS (n : Int)
  | fail (e : String)
  deriving DecidableEq, Repr

/-- The action a config line performs, mirroring the branch structure of
`processConfigLine` (hence of `ConfigManager::loadConfig`). -/
def lineAction (line : String) : ConfigAction :=
  if line.data.isEmpty || line.data.head? == some '#' then .skip
  else
    match getlineD '=' line.data with
    | none => .skip
    | some kr =>
      match getlineD '\n' kr.2 with
      | none => .skip
      | some vr =>
        let key := String.mk kr.1
        let value := String.mk vr.1
        if key = "toll_rate_car" then
          match stod value with
          | some q => .setRate "car" q
          | none => .fail "stod: invalid argument"
        else if key = "toll_rate_truck" then
          match stod value with
          | some q => .setRate "truck" q
          | none => .fail "stod: invalid argument"
        else if key = "toll_rate_bus" then
          match stod value with
          | some q => .setRate "bus" q
          | none => .fail "stod: invalid argument"
        else if key = "camera_resolution_width" then
          match stoi value with
          | some n => .setWidth n
          | none => .fail "stoi: invalid argument"
        else if key = "camera_resolution_height" then
          match stoi value with
          | some n => .setHeight n
          | none => .fail "stoi: invalid argument"
        else if key = "camera_fps" then
          match stoi value with
          | some n => .setFPS n
          | none => .fail "stoi: invalid argument"
        else .skip

/-- Application of one config action to the configuration state. -/
def interpAction (a : ConfigAction) (cfg : SystemConfig) :
    Except String SystemConfig :=
  match a with
  | .skip => .ok cfg
  | .setRate k q => .ok { cfg with tollRates := insertAL k q cfg.tollRates }
  | .setWidth n => .ok { cfg with cameraResolutionWidth := n }
  | .setHeight n => .ok { cfg with cameraResolutionHeight := n }
  | .setFPS n => .ok { cfg with cameraFPS := n }
  | .fail e => .error e

/-- Accumulated effect of a whole config source: the rate inserts in order
and the final value of each camera field (when some line set it). -/
structure ConfigDelta where
  rates : List (String × Frac)
  width : Option Int
  height : Option Int
  fps : Option Int
  deriving DecidableEq, Repr

/-- Application of an accumulated config effect to a configuration state. -/
def applyDelta (δ : ConfigDelta) (cfg : SystemConfig) : SystemConfig :=
  { tollRates := foldInserts cfg.tollRates δ.rates
    cameraResolutionWidth := δ.width.getD cfg.cameraResolutionWidth
    cameraResolutionHeight := δ.height.getD cfg.cameraResolutionHeight
    cameraFPS := δ.fps.getD cfg.cameraFPS }

/-- Composition of one leading action with an accumulated effect that runs
after it (camera fields set later win; rate inserts are sequenced). -/
def prependAction : ConfigAction → ConfigDelta → ConfigDelta
  | .skip, δ => δ
  | .setRate k q, δ => { δ with rates := (k, q) :: δ.rates }
  | .setWidth n, δ => { δ with width := some (δ.width.getD n) }
  | .setHeight n, δ => { δ with height := some (δ.height.getD n) }
  | .setFPS n, δ => { δ with fps := some (δ.fps.getD n) }
  | .fail _, δ => δ

/-- Accumulated effect of a config source, with the first thrown conversion
error aborting the remainder, as in the loop of `loadConfigLines`. -/
def mkDelta : List String → Except String ConfigDelta
  | [] => .ok ⟨[], none, none, none⟩
  | l :: ls =>
    match lineAction l with
    | .fail e => .error e
    | a => (mkDelta ls).map (prependAction a)

/-- A concrete registered vehicle used in witnesses (spec scenario A). -/
def demoVehicle : Vehicle :=
  ⟨"ABC123", "RF1", 100, "car"⟩

/-- A concrete system state with one registered vehicle, used in witnesses. -/
def demoState : SysState :=
  ⟨[("RF1", demoVehicle)], [], []⟩

theorem keysAL_cons {α : Type} (kv : String × α) (m : List (String × α)) :
    keysAL (kv :: m) = kv.1 :: keysAL m := rfl

theorem lookupAL_insertAL {α : Type} (k k2 : String) (v : α)
    (m : List (String × α)) :
    lookupAL k2 (insertAL k v m) = if k2 = k then some v else lookupAL k2 m := by
  induction m with
  | nil =>
    simp only [insertAL, lookupAL]
    by_cases h : k2 = k
    · subst h; simp
    · have h2 : ¬ (k = k2) := fun hh => h hh.symm
      simp [h, h2]
  | cons kv rest ih =>
    simp only [insertAL]
    by_cases hk : kv.1 = k
    · subst hk
      simp only [if_pos rfl, lookupAL]
      by_cases h2 : k2 = kv.1
      · subst h2; simp
      · have h3 : ¬ (kv.1 = k2) := fun hh => h2 hh.symm
        simp [h2, h3]
    · simp only [if_neg hk, lookupAL, ih]
      by_cases h2 : kv.1 = k2
      · subst h2
        simp [hk]
      · simp [h2]

theorem keysAL_insertAL {α : Type} (k : String) (v : α)
    (m : List (String × α)) :
    keysAL (insertAL k v m) =
      if k ∈ keysAL m then keysAL m else keysAL m ++ [k] := by
  induction m with
  | nil => simp [insertAL, keysAL]
  | cons kv rest ih =>
    simp only [insertAL]
    by_cases hk : kv.1 = k
    · subst hk
      simp [keysAL]
    · have hne : ¬ (k = kv.1) := fun hh => hk hh.symm
      rw [if_neg hk, keysAL_cons, keysAL_cons, ih]
      by_cases hmem : k ∈ keysAL rest
      · rw [if_pos hmem, if_pos (List.mem_cons.mpr (Or.inr hmem))]
      · rw [if_neg hmem, if_neg (by simp [List.mem_cons, hne, hmem])]
        simp

theorem nodup_keysAL_insertAL {α : Type} (k : String) (v : α)
    (m : List (String × α)) (h : (keysAL m).Nodup) :
    (keysAL (insertAL k v m)).Nodup := by
  rw [keysAL_insertAL]
  by_cases hmem : k ∈ keysAL m
  · simpa [hmem] using h
  · simp only [if_neg hmem]
    simpa [List.nodup_append] using ⟨h, hmem⟩

theorem lookupAL_eq_none {α : Type} (k : String) (m : List (String × α))
    (h : k ∉ keysAL m) : lookupAL k m = none := by
  induction m with
  | nil => rfl
  | cons kv rest ih =>
    rw [keysAL_cons] at h
    have h1 : ¬ (k = kv.1) := fun hh => h (List.mem_cons.mpr (Or.inl hh))
    have h2 : k ∉ keysAL rest := fun hh => h (List.mem_cons.mpr (Or.inr hh))
    have h3 : ¬ (kv.1 = k) := fun hh => h1 hh.symm
    simp only [lookupAL, if_neg h3]
    exact ih h2

theorem alExt {α : Type} (m1 : List (String × α)) :
    ∀ m2 : List (String × α), keysAL m1 = keysAL m2 → (keysAL m1).Nodup →
      (∀ k, lookupAL k m1 = lookupAL k m2) → m1 = m2 := by
  induction m1 with
  | nil =>
    intro m2 hkeys _ _
    cases m2 with
    | nil => rfl
    | cons kv t => simp [keysAL] at hkeys
  | cons kv1 t1 ih =>
    intro m2 hkeys hnd hlk
    cases m2 with
    | nil => simp [keysAL] at hkeys
    | cons kv2 t2 =>
      rw [keysAL_cons, keysAL_cons] at hkeys
      have hk1 : kv1.1 = kv2.1 := (List.cons_eq_cons.mp hkeys).1
      have ht : keysAL t1 = keysAL t2 := (List.cons_eq_cons.mp hkeys).2
      rw [keysAL_cons] at hnd
      have hnotin : kv1.1 ∉ keysAL t1 := (List.nodup_cons.mp hnd).1
      have hndt : (keysAL t1).Nodup := (List.nodup_cons.mp hnd).2
      have hv : kv1.2 = kv2.2 := by
        have h := hlk kv1.1
        have h2 : kv2.1 = kv1.1 := hk1.symm
        simp only [lookupAL, if_pos rfl, if_pos h2] at h
        exact Option.some.inj h
      have htl : ∀ k, lookupAL k t1 = lookupAL k t2 := by
        intro k
        by_cases hkk : k = kv1.1
        · subst hkk
          rw [lookupAL_eq_none _ _ hnotin, lookupAL_eq_none]
          rw [← ht]
          exact hnotin
        · have h := hlk k
          have h1 : ¬ (kv1.1 = k) := fun hh => hkk hh.symm
          have h2 : ¬ (kv2.1 = k) := by rw [← hk1]; exact h1
          simp only [lookupAL, if_neg h1, if_neg h2] at h
          exact h
      have hpair : kv1 = kv2 := Prod.ext hk1 hv
      rw [hpair, ih t2 ht hndt htl]

theorem foldInserts_cons {α : Type} (m : List (String × α)) (kv : String × α)
    (σ : List (String × α)) :
    foldInserts m (kv :: σ) = foldInserts (insertAL kv.1 kv.2 m) σ := rfl

theorem lookupAL_foldInserts {α : Type} (k : String) (σ : List (String × α)) :
    ∀ m, lookupAL k (foldInserts m σ) = firstSome (lastVal k σ) (lookupAL k m) := by
  induction σ with
  | nil => intro m; rfl
  | cons kv σ ih =>
    intro m
    rw [foldInserts_cons, ih, lastVal]
    rw [lookupAL_insertAL]
    cases h : lastVal k σ with
    | some v => simp [firstSome]
    | none =>
      by_cases hk : k = kv.1
      · subst hk
        simp [firstSome]
      · have hk2 : ¬ (kv.1 = k) := fun hh => hk hh.symm
        simp [firstSome, hk, hk2]

theorem keysAfter_cons {α : Type} (kv : String × α) (σ : List (String × α))
    (ks : List String) :
    keysAfter (kv :: σ) ks =
      keysAfter σ (if kv.1 ∈ ks then ks else ks ++ [kv.1]) := rfl

theorem keysAL_foldInserts {α : Type} (σ : List (String × α)) :
    ∀ m, keysAL (foldInserts m σ) = keysAfter σ (keysAL m) := by
  induction σ with
  | nil => intro m; rfl
  | cons kv σ ih =>
    intro m
    rw [foldInserts_cons, ih, keysAL_insertAL, keysAfter_cons]

theorem mem_keysAfter_left {α : Type} (σ : List (String × α)) (k : String) :
    ∀ ks, k ∈ ks → k ∈ keysAfter σ ks := by
  induction σ with
  | nil => intro ks h; exact h
  | cons kv σ ih =>
    intro ks h
    rw [keysAfter_cons]
    apply ih
    by_cases hm : kv.1 ∈ ks
    · simpa [hm] using h
    · simp only [if_neg hm]
      exact List.mem_append_left _ h

theorem mem_keysAfter_of_mem {α : Type} (σ : List (String × α)) (kv : String × α)
    (h : kv ∈ σ) : ∀ ks, kv.1 ∈ keysAfter σ ks := by
  induction σ with
  | nil => exact absurd h (List.not_mem_nil kv)
  | cons kv2 σ ih =>
    intro ks
    rw [keysAfter_cons]
    rcases List.mem_cons.mp h with h1 | h2
    · subst h1
      apply mem_keysAfter_left
      by_cases hm : kv.1 ∈ ks
      · simp [hm]
      · simp [hm]
    · exact ih h2 _

theorem keysAfter_eq_self {α : Type} (σ : List (String × α)) :
    ∀ ks, (∀ kv ∈ σ, kv.1 ∈ ks) → keysAfter σ ks = ks := by
  induction σ with
  | nil => intro ks _; rfl
  | cons kv σ ih =>
    intro ks h
    rw [keysAfter_cons]
    have hm : kv.1 ∈ ks := h kv (List.mem_cons_self kv σ)
    rw [if_pos hm]
    exact ih ks (fun kv2 h2 => h kv2 (List.mem_cons.mpr (Or.inr h2)))

theorem nodup_keysAfter {α : Type} (σ : List (String × α)) :
    ∀ ks : List String, ks.Nodup → (keysAfter σ ks).Nodup := by
  induction σ with
  | nil => intro ks h; exact h
  | cons kv σ ih =>
    intro ks h
    rw [keysAfter_cons]
    apply ih
    by_cases hm : kv.1 ∈ ks
    · simpa [hm] using h
    · simp only [if_neg hm]
      simpa [List.nodup_append] using ⟨h, hm⟩

theorem toFinset_keysAfter {α : Type} (σ : List (String × α)) :
    ∀ ks : List String,
      (keysAfter σ ks).toFinset = ks.toFinset ∪ (σ.map Prod.fst).toFinset := by
  induction σ with
  | nil => intro ks; simp [keysAfter]
  | cons kv σ ih =>
    intro ks
    rw [keysAfter_cons, ih]
    by_cases hm : kv.1 ∈ ks
    · rw [if_pos hm]
      ext a
      simp only [Finset.mem_union, List.mem_toFinset, List.map_cons, List.mem_cons]
      constructor
      · rintro (h1 | h2)
        · exact Or.inl h1
        · exact Or.inr (Or.inr h2)
      · rintro (h1 | h2 | h3)
        · exact Or.inl h1
        · subst h2; exact Or.inl hm
        · exact Or.inr h3
    · rw [if_neg hm]
      ext a
      simp only [Finset.mem_union, List.mem_toFinset, List.map_cons, List.mem_cons,
        List.mem_append, List.mem_singleton]
      tauto

theorem nodup_keysAL_foldInserts {α : Type} (σ m : List (String × α))
    (h : (keysAL m).Nodup) : (keysAL (foldInserts m σ)).Nodup := by
  rw [keysAL_foldInserts]
  exact nodup_keysAfter σ _ h

theorem foldInserts_idem {α : Type} (σ m : List (String × α))
    (h : (keysAL m).Nodup) :
    foldInserts (foldInserts m σ) σ = foldInserts m σ := by
  apply alExt
  · rw [keysAL_foldInserts, keysAL_foldInserts]
    apply keysAfter_eq_self
    intro kv hkv
    exact mem_keysAfter_of_mem σ kv hkv (keysAL m)
  · rw [keysAL_foldInserts]
    apply nodup_keysAfter
    exact nodup_keysAL_foldInserts σ m h
  · intro k
    rw [lookupAL_foldInserts, lookupAL_foldInserts]
    cases lastVal k σ <;> simp [firstSome]

theorem length_foldInserts_nil {α : Type} (σ : List (String × α)) :
    (foldInserts [] σ).length = (σ.map Prod.fst).toFinset.card := by
  have h1 : (foldInserts ([] : List (String × α)) σ).length
      = (keysAL (foldInserts [] σ)).length := by
    simp [keysAL]
  rw [h1, keysAL_foldInserts]
  have hnd : (keysAfter σ (keysAL ([] : List (String × α)))).Nodup :=
    nodup_keysAfter σ _ (by simp [keysAL])
  rw [← List.toFinset_card_of_nodup hnd, toFinset_keysAfter]
  simp [keysAL]

theorem foldl_vehicleStep_eq (ds : List String) :
    ∀ reg, ds.foldl vehicleStep reg = foldInserts reg (vehSigma ds) := by
  induction ds with
  | nil => intro reg; rfl
  | cons d ds ih =>
    intro reg
    rw [List.foldl_cons, ih]
    cases h : rowParse d with
    | some v =>
      have h1 : vehicleStep reg d = insertAL v.rfid v reg := by
        simp [vehicleStep, h]
      have h2 : vehSigma (d :: ds) = (v.rfid, v) :: vehSigma ds := by
        simp [vehSigma, List.filterMap_cons, h]
      rw [h1, h2, foldInserts_cons]
    | none =>
      have h1 : vehicleStep reg d = reg := by
        simp [vehicleStep, h]
      have h2 : vehSigma (d :: ds) = vehSigma ds := by
        simp [vehSigma, List.filterMap_cons, h]
      rw [h1, h2]

theorem loadVehicleLines_cons (reg : List (String × Vehicle)) (hdr : String)
    (ds : List String) :
    loadVehicleLines reg (hdr :: ds) = foldInserts reg (vehSigma ds) :=
  foldl_vehicleStep_eq ds reg

theorem processConfigLine_eq (cfg : SystemConfig) (l : String) :
    processConfigLine cfg l = interpAction (lineAction l) cfg := by
  unfold processConfigLine lineAction
  repeat' split <;> try rfl
  all_goals simp only []
  all_goals repeat' split <;> try rfl

theorem applyDelta_empty (cfg : SystemConfig) :
    applyDelta ⟨[], none, none, none⟩ cfg = cfg := rfl

theorem loadConfigLines_eq_mkDelta (lines : List String) :
    ∀ cfg, loadConfigLines lines cfg
      = (mkDelta lines).map (fun δ => applyDelta δ cfg) := by
  induction lines with
  | nil => intro cfg; rfl
  | cons l ls ih =>
    intro cfg
    have hstep : loadConfigLines (l :: ls) cfg =
        match processConfigLine cfg l with
        | .ok cfg2 => loadConfigLines ls cfg2
        | .error e => .error e := rfl
    rw [hstep, processConfigLine_eq]
    cases ha : lineAction l with
    | fail e =>
      simp only [interpAction, mkDelta, ha]
      rfl
    | skip =>
      simp only [interpAction]
      rw [ih]
      have hmk : mkDelta (l :: ls) = (mkDelta ls).map (prependAction .skip) := by
        simp [mkDelta, ha]
      rw [hmk]
      cases hm : mkDelta ls <;> rfl
    | setRate k q =>
      simp only [interpAction]
      rw [ih]
      have hmk : mkDelta (l :: ls) = (mkDelta ls).map (prependAction (.setRate k q)) := by
        simp [mkDelta, ha]
      rw [hmk]
      cases hm : mkDelta ls <;> rfl
    | setWidth n =>
      simp only [interpAction]
      rw [ih]
      have hmk : mkDelta (l :: ls) = (mkDelta ls).map (prependAction (.setWidth n)) := by
        simp [mkDelta, ha]
      rw [hmk]
      cases hm : mkDelta ls <;> rfl
    | setHeight n =>
      simp only [interpAction]
      rw [ih]
      have hmk : mkDelta (l :: ls) = (mkDelta ls).map (prependAction (.setHeight n)) := by
        simp [mkDelta, ha]
      rw [hmk]
      cases hm : mkDelta ls <;> rfl
    | setFPS n =>
      simp only [interpAction]
      rw [ih]
      have hmk : mkDelta (l :: ls) = (mkDelta ls).map (prependAction (.setFPS n)) := by
        simp [mkDelta, ha]
      rw [hmk]
      cases hm : mkDelta ls <;> rfl

theorem applyDelta_idem (δ : ConfigDelta) (cfg : SystemConfig)
    (h : (keysAL cfg.tollRates).Nodup) :
    applyDelta δ (applyDelta δ cfg) = applyDelta δ cfg := by
  unfold applyDelta
  have hrates : foldInserts (foldInserts cfg.tollRates δ.rates) δ.rates
      = foldInserts cfg.tollRates δ.rates := foldInserts_idem δ.rates cfg.tollRates h
  cases hw : δ.width <;> cases hh : δ.height <;> cases hf : δ.fps <;>
    simp [hrates]

theorem takeUntil_not_mem (d : Char) (l : List Char) (h : d ∉ l) :
    takeUntil d l = (l, []) := by
  induction l with
  | nil => rfl
  | cons c cs ih =>
    have hne : ¬ (c = d) := fun hh => h (hh ▸ List.mem_cons_self c cs)
    have h2 : d ∉ cs := fun hh => h (List.mem_cons.mpr (Or.inr hh))
    simp [takeUntil, hne, ih h2]

theorem takeUntil_append (d : Char) (l2 : List Char) :
    ∀ l1 : List Char, d ∉ l1 → takeUntil d (l1 ++ d :: l2) = (l1, l2) := by
  intro l1
  induction l1 with
  | nil => intro _; simp [takeUntil]
  | cons c cs ih =>
    intro h
    have hne : ¬ (c = d) := fun hh => h (hh ▸ List.mem_cons_self c cs)
    have h2 : d ∉ cs := fun hh => h (List.mem_cons.mpr (Or.inr hh))
    simp [takeUntil, hne, ih h2]

theorem getlineD_no_delim (d : Char) (s : String) (hne : s ≠ "")
    (h : d ∉ s.data) : getlineD d s.data = some (s.data, []) := by
  cases hd : s.data with
  | nil =>
    exfalso
    apply hne
    cases s with
    | mk data => cases hd; rfl
  | cons c cs =>
    rw [hd] at h
    have := takeUntil_not_mem d (c :: cs) h
    simp [getlineD, this]

/-- C3: for the well-formed registry row `ABC123,RF1234567,100.0,car` the
load inserts one Vehicle keyed by the row's rfid whose plate, rfid and
balance match the row, but whose type field is the empty string — not the
row's `car` — because `iss >> balance` leaves the comma in the stream and
`getline(type, ',')` therefore reads the empty field before it; the stored
type classifies as the unknown class although the row said `car`.  This
refutes the claim that the stored fields equal the row's type. -/
theorem registryRow_type_field_lost :
    loadRegisteredVehicles
        (some ["plate,rfid,balance,type", "ABC123,RF1234567,100.0,car"]) [] []
      = ([("RF1234567", ⟨"ABC123", "RF1234567", 100, ""⟩)], [])
    ∧ (⟨"ABC123", "RF1234567", 100, ""⟩ : Vehicle).vtype ≠ "car"
    ∧ classOf (⟨"ABC123", "RF1234567", 100, ""⟩ : Vehicle).vtype = VClass.unknown := by
  refine ⟨by decide, by decide, by decide⟩

/-- C4: one `logTransaction` call does not append one row of the form
`timestamp,vehicle_id,payment_method,amount,balance_remaining`: because the
`std::ctime` string ends with a newline, the written record spans two lines
(it contains two newline characters), the first line being the bare
timestamp — holding no comma, hence no row fields — and the second starting
with a comma. -/
theorem logTransaction_record_spans_two_lines :
    logTransaction "Sun Oct 12 12:00:00 2025\n" "RF1234567" "rfid" 50 50 ""
      = "Sun Oct 12 12:00:00 2025\n,RF1234567,rfid,50,50\n"
    ∧ (logTransaction "Sun Oct 12 12:00:00 2025\n" "RF1234567" "rfid" 50 50 "").data.count '\n' = 2
    ∧ (takeUntil '\n'
        (logTransaction "Sun Oct 12 12:00:00 2025\n" "RF1234567" "rfid" 50 50 "").data).1
      = "Sun Oct 12 12:00:00 2025".data
    ∧ ',' ∉ (takeUntil '\n'
        (logTransaction "Sun Oct 12 12:00:00 2025\n" "RF1234567" "rfid" 50 50 "").data).1 := by
  refine ⟨by decide, by decide, by decide, by decide⟩

/-- C5: an absent or unreadable config source makes the load succeed with
the default configuration — rates car=50, truck=100, bus=75, camera
1920x1080 at 30 fps — regardless of the prior in-memory state, and the file
content persisted by `createDefaultConfig` round-trips: loading it yields
exactly those values. -/
theorem configLoad_absent_source_defaults (cfg : SystemConfig) :
    loadConfig none cfg = .ok (createDefaultConfig cfg)
    ∧ lookupAL "car" (createDefaultConfig cfg).tollRates = some 50
    ∧ lookupAL "truck" (createDefaultConfig cfg).tollRates = some 100
    ∧ lookupAL "bus" (createDefaultConfig cfg).tollRates = some 75
    ∧ (createDefaultConfig cfg).cameraResolutionWidth = 1920
    ∧ (createDefaultConfig cfg).cameraResolutionHeight = 1080
    ∧ (createDefaultConfig cfg).cameraFPS = 30
    ∧ loadConfigLines defaultConfigFileLines emptyConfig
        = .ok ⟨[("car", 50), ("truck", 100), ("bus", 75)], 1920, 1080, 30⟩ := by
  refine ⟨rfl, ?_, ?_, ?_, rfl, rfl, rfl, by decide⟩
  · have h : lookupAL "car" (createDefaultConfig cfg).tollRates
        = lookupAL "car"
            (insertAL "bus" 75 (insertAL "truck" 100 (insertAL "car" 50 cfg.tollRates))) := rfl
    rw [h, lookupAL_insertAL, if_neg (by decide), lookupAL_insertAL,
      if_neg (by decide), lookupAL_insertAL, if_pos rfl]
  · have h : lookupAL "truck" (createDefaultConfig cfg).tollRates
        = lookupAL "truck"
            (insertAL "bus" 75 (insertAL "truck" 100 (insertAL "car" 50 cfg.tollRates))) := rfl
    rw [h, lookupAL_insertAL, if_neg (by decide), lookupAL_insertAL, if_pos rfl]
  · have h : lookupAL "bus" (createDefaultConfig cfg).tollRates
        = lookupAL "bus"
            (insertAL "bus" 75 (insertAL "truck" 100 (insertAL "car" 50 cfg.tollRates))) := rfl
    rw [h, lookupAL_insertAL, if_pos rfl]

/-- C2 (counterexample): a config source whose middle line carries a
malformed numeric value for the recognized key `toll_rate_car` does not have
that single assignment skipped with the rest completing: the whole load
aborts with the conversion error (`std::stod` throws out of `loadConfig`),
and the following well-formed `toll_rate_bus` line is never applied. -/
theorem configLoad_aborts_on_malformed_value_cex :
    loadConfigLines
        ["toll_rate_truck=100.0", "toll_rate_car=abc", "toll_rate_bus=75.0"]
        emptyConfig
      = .error "stod: invalid argument"
    ∧ stod "abc" = none := by
  exact ⟨by decide, by decide⟩

/-- C2 (amended): config load processes lines in order, but a malformed
numeric value for a recognized toll-rate key does not merely skip that
assignment — `std::stod` throws and the exception aborts the entire load
(no later line is processed); only unrecognized keys, comment and blank
lines, and lines without `=` or with an empty value are skipped without
failing. -/
theorem configLoad_malformed_value_raises (k v : String) (ls : List String)
    (cfg : SystemConfig)
    (hk : k = "toll_rate_car" ∨ k = "toll_rate_truck" ∨ k = "toll_rate_bus")
    (hv : v ≠ "") (hnl : '\n' ∉ v.data) (hs : stod v = none) :
    loadConfigLines ((k ++ "=" ++ v) :: ls) cfg = .error "stod: invalid argument" := by
  have h5 : getlineD '\n' v.data = some (v.data, []) := getlineD_no_delim '\n' v hv hnl
  rcases hk with hkc | hkc | hkc <;> subst hkc
  · have hpc : processConfigLine cfg ("toll_rate_car" ++ "=" ++ v)
        = Except.error "stod: invalid argument" := by
      have hred : processConfigLine cfg ("toll_rate_car" ++ "=" ++ v)
          = (match getlineD '\n' v.data with
             | none => Except.ok cfg
             | some vr =>
               match stod (String.mk vr.1) with
               | some q => Except.ok { cfg with tollRates := insertAL "car" q cfg.tollRates }
               | none => Except.error "stod: invalid argument") := rfl
      rw [hred, h5]
      show (match stod v with
            | some q => Except.ok { cfg with tollRates := insertAL "car" q cfg.tollRates }
            | none => Except.error "stod: invalid argument")
          = Except.error "stod: invalid argument"
      rw [hs]
    show (match processConfigLine cfg ("toll_rate_car" ++ "=" ++ v) with
          | Except.ok cfg2 => loadConfigLines ls cfg2
          | Except.error e => Except.error e)
        = Except.error "stod: invalid argument"
    rw [hpc]
  · have hpc : processConfigLine cfg ("toll_rate_truck" ++ "=" ++ v)
        = Except.error "stod: invalid argument" := by
      have hred : processConfigLine cfg ("toll_rate_truck" ++ "=" ++ v)
          = (match getlineD '\n' v.data with
             | none => Except.ok cfg
             | some vr =>
               match stod (String.mk vr.1) with
               | some q => Except.ok { cfg with tollRates := insertAL "truck" q cfg.tollRates }
               | none => Except.error "stod: invalid argument") := rfl
      rw [hred, h5]
      show (match stod v with
            | some q => Except.ok { cfg with tollRates := insertAL "truck" q cfg.tollRates }
            | none => Except.error "stod: invalid argument")
          = Except.error "stod: invalid argument"
      rw [hs]
    show (match processConfigLine cfg ("toll_rate_truck" ++ "=" ++ v) with
          | Except.ok cfg2 => loadConfigLines ls cfg2
          | Except.error e => Except.error e)
        = Except.error "stod: invalid argument"
    rw [hpc]
  · have hpc : processConfigLine cfg ("toll_rate_bus" ++ "=" ++ v)
        = Except.error "stod: invalid argument" := by
      have hred : processConfigLine cfg ("toll_rate_bus" ++ "=" ++ v)
          = (match getlineD '\n' v.data with
             | none => Except.ok cfg
             | some vr =>
               match stod (String.mk vr.1) with
               | some q => Except.ok { cfg with tollRates := insertAL "bus" q cfg.tollRates }
               | none => Except.error "stod: invalid argument") := rfl
      rw [hred, h5]
      show (match stod v with
            | some q => Except.ok { cfg with tollRates := insertAL "bus" q cfg.tollRates }
            | none => Except.error "stod: invalid argument")
          = Except.error "stod: invalid argument"
      rw [hs]
    show (match processConfigLine cfg ("toll_rate_bus" ++ "=" ++ v) with
          | Except.ok cfg2 => loadConfigLines ls cfg2
          | Except.error e => Except.error e)
        = Except.error "stod: invalid argument"
    rw [hpc]

/-- Witness for the amended C2 theorem at the concrete malformed line
`toll_rate_car=abc` followed by a well-formed line. -/
theorem configLoad_malformed_value_raises_witness :
    ("toll_rate_car" = "toll_rate_car" ∨ "toll_rate_car" = "toll_rate_truck"
        ∨ "toll_rate_car" = "toll_rate_bus")
    ∧ ("abc" : String) ≠ ""
    ∧ '\n' ∉ ("abc" : String).data
    ∧ stod "abc" = none
    ∧ loadConfigLines (("toll_rate_car" ++ "=" ++ "abc") :: ["toll_rate_bus=75.0"])
        emptyConfig
      = .error "stod: invalid argument" :=
  ⟨Or.inl rfl, by decide, by decide, by decide,
    configLoad_malformed_value_raises "toll_rate_car" "abc" ["toll_rate_bus=75.0"]
      emptyConfig (Or.inl rfl) (by decide) (by decide) (by decide)⟩

theorem lastVal_eq_none {α : Type} (k : String) (σ : List (String × α))
    (h : ∀ kv ∈ σ, kv.1 ≠ k) : lastVal k σ = none := by
  induction σ with
  | nil => rfl
  | cons kv σ ih =>
    have h1 : kv.1 ≠ k := h kv (List.mem_cons_self kv σ)
    have h2 : lastVal k σ = none := ih (fun kv2 hm => h kv2 (List.mem_cons.mpr (Or.inr hm)))
    simp [lastVal, h2, h1, firstSome]

theorem lastVal_vehicles_eq_getLast (k : String) (l : List Vehicle) :
    lastVal k (l.map (fun v => (v.rfid, v)))
      = (l.filter (fun v => v.rfid = k)).getLast? := by
  induction l with
  | nil => rfl
  | cons v l ih =>
    by_cases h : v.rfid = k
    · show firstSome (lastVal k (l.map (fun v => (v.rfid, v))))
          (if v.rfid = k then some v else none)
        = ((v :: l).filter (fun v => v.rfid = k)).getLast?
      have hfc : (v :: l).filter (fun v => v.rfid = k)
          = v :: l.filter (fun v => v.rfid = k) := by
        simp [List.filter_cons, h]
      rw [ih, if_pos h, hfc]
      cases hf : l.filter (fun v => v.rfid = k) with
      | nil => simp [firstSome]
      | cons w t =>
        rw [List.getLast?_cons_cons]
        cases hg : (w :: t).getLast? with
        | none => exact absurd (List.getLast?_eq_none_iff.mp hg) (List.cons_ne_nil w t)
        | some x => simp [firstSome]
    · show firstSome (lastVal k (l.map (fun v => (v.rfid, v))))
          (if v.rfid = k then some v else none)
        = ((v :: l).filter (fun v => v.rfid = k)).getLast?
      have hfc : (v :: l).filter (fun v => v.rfid = k)
          = l.filter (fun v => v.rfid = k) := by
        simp [List.filter_cons, h]
      rw [ih, if_neg h, hfc]
      cases hg : (l.filter (fun v => v.rfid = k)).getLast? <;> simp [firstSome]

/-- C7 (counterexample): a registry source whose data rows are two
well-formed rows sharing the rfid `R1` loads exactly one vehicle, not two —
so a source with N well-formed rows (and no malformed ones) need not yield
N vehicles. -/
theorem registryLoad_duplicate_rfid_cex :
    (rowParse "A,R1,1.0,car").isSome
    ∧ (rowParse "B,R1,2.0,car").isSome
    ∧ (loadRegisteredVehicles
        (some ["plate,rfid,balance,type", "A,R1,1.0,car", "B,R1,2.0,car"]) [] []).1.length
      = 1 := by
  refine ⟨by decide, by decide, by decide⟩

/-- C7 (amended): a registry source with N well-formed rows carrying
pairwise-distinct rfids plus any number of malformed rows loads exactly N
vehicles (one per distinct rfid of the accepted rows) without failing, and
leaves the error log untouched; an entirely unreadable source logs the
open error and yields an empty registry instead of failing. -/
theorem registryLoad_row_resilience (hdr : String) (ds : List String)
    (errs : List String)
    (h : ((ds.filterMap rowParse).map (fun v => v.rfid)).Nodup) :
    (loadRegisteredVehicles (some (hdr :: ds)) [] errs).1.length
        = (ds.filterMap rowParse).length
    ∧ (loadRegisteredVehicles (some (hdr :: ds)) [] errs).2 = errs
    ∧ loadRegisteredVehicles none [] errs
        = ([], errs ++ ["Could not open registered vehicles file"]) := by
  refine ⟨?_, rfl, rfl⟩
  show (loadVehicleLines [] (hdr :: ds)).length = (ds.filterMap rowParse).length
  rw [loadVehicleLines_cons, length_foldInserts_nil]
  have hmap : (vehSigma ds).map Prod.fst = (ds.filterMap rowParse).map (fun v => v.rfid) := by
    simp [vehSigma, List.map_map]
  rw [hmap, List.toFinset_card_of_nodup h, List.length_map]

/-- Witness for the amended C7 theorem: a source with two well-formed rows
with distinct rfids and two malformed rows (a short row and a non-numeric
balance) loads exactly the two vehicles. -/
theorem registryLoad_row_resilience_witness :
    (((["ABC123,RF1,100.0,car", "bad", "B,R2,x,car", "C,R3,50.0,bus"].filterMap
        rowParse).map (fun v => v.rfid)).Nodup)
    ∧ (loadRegisteredVehicles
          (some ("plate,rfid,balance,type"
            :: ["ABC123,RF1,100.0,car", "bad", "B,R2,x,car", "C,R3,50.0,bus"])) [] []).1.length
        = (["ABC123,RF1,100.0,car", "bad", "B,R2,x,car", "C,R3,50.0,bus"].filterMap
            rowParse).length
    ∧ (loadRegisteredVehicles
          (some ("plate,rfid,balance,type"
            :: ["ABC123,RF1,100.0,car", "bad", "B,R2,x,car", "C,R3,50.0,bus"])) [] []).2 = []
    ∧ loadRegisteredVehicles none [] []
        = ([], [] ++ ["Could not open registered vehicles file"]) :=
  ⟨by decide,
    registryLoad_row_resilience "plate,rfid,balance,type"
      ["ABC123,RF1,100.0,car", "bad", "B,R2,x,car", "C,R3,50.0,bus"] [] (by decide)⟩

/-- C9: registry load unconditionally discards the first line of the source
as a header — the loaded registry does not depend on the first line at all,
and in particular a well-formed vehicle row in first position produces no
vehicle: its rfid resolves to nothing when no later row carries it. -/
theorem registryLoad_skips_first_line (l l2 : String) (ds : List String)
    (v : Vehicle) :
    loadVehicleLines [] (l :: ds) = loadVehicleLines [] (l2 :: ds)
    ∧ (rowParse l = some v →
        (∀ w ∈ ds.filterMap rowParse, w.rfid ≠ v.rfid) →
        lookupAL v.rfid (loadVehicleLines [] (l :: ds)) = none) := by
  constructor
  · rw [loadVehicleLines_cons, loadVehicleLines_cons]
  · intro _ hnone
    rw [loadVehicleLines_cons, lookupAL_foldInserts]
    have hlast : lastVal v.rfid (vehSigma ds) = none := by
      apply lastVal_eq_none
      intro kv hkv
      obtain ⟨w, hw, hkveq⟩ := List.mem_map.mp hkv
      rw [← hkveq]
      exact hnone w hw
    rw [hlast]
    simp [firstSome, lookupAL]

/-- Witness for the C9 theorem: the well-formed row `AAA111,RF9,10.0,car`
in first position yields no vehicle for rfid `RF9`. -/
theorem registryLoad_skips_first_line_witness :
    rowParse "AAA111,RF9,10.0,car" = some ⟨"AAA111", "RF9", 10, ""⟩
    ∧ loadVehicleLines [] ("AAA111,RF9,10.0,car" :: ["B,R2,5.0,bus"])
        = loadVehicleLines [] ("plate,rfid,balance,type" :: ["B,R2,5.0,bus"])
    ∧ lookupAL "RF9" (loadVehicleLines [] ("AAA111,RF9,10.0,car" :: ["B,R2,5.0,bus"]))
        = none :=
  ⟨by decide,
    (registryLoad_skips_first_line "AAA111,RF9,10.0,car" "plate,rfid,balance,type"
      ["B,R2,5.0,bus"] ⟨"AAA111", "RF9", 10, ""⟩).1,
    (registryLoad_skips_first_line "AAA111,RF9,10.0,car" "plate,rfid,balance,type"
      ["B,R2,5.0,bus"] ⟨"AAA111", "RF9", 10, ""⟩).2 (by decide) (by decide)⟩

/-- C10: after a registry load, the vehicle stored for any rfid is exactly
the one built from the last accepted row carrying that rfid (later rows
overwrite earlier ones), and the registry size equals the number of
distinct rfids among the accepted rows. -/
theorem registryLoad_last_row_wins (hdr : String) (ds : List String) (k : String) :
    lookupAL k (loadVehicleLines [] (hdr :: ds))
        = ((ds.filterMap rowParse).filter (fun v => v.rfid = k)).getLast?
    ∧ (loadVehicleLines [] (hdr :: ds)).length
        = ((ds.filterMap rowParse).map (fun v => v.rfid)).toFinset.card := by
  constructor
  · rw [loadVehicleLines_cons, lookupAL_foldInserts]
    have h2 : lastVal k (vehSigma ds)
        = ((ds.filterMap rowParse).filter (fun v => v.rfid = k)).getLast? :=
      lastVal_vehicles_eq_getLast k (ds.filterMap rowParse)
    rw [h2]
    cases hg : ((ds.filterMap rowParse).filter (fun v => v.rfid = k)).getLast? <;>
      simp [firstSome, lookupAL]
  · rw [loadVehicleLines_cons, length_foldInserts_nil]
    have hmap : (vehSigma ds).map Prod.fst = (ds.filterMap rowParse).map (fun v => v.rfid) := by
      simp [vehSigma, List.map_map]
    rw [hmap]

/-- C8: both loads are deterministic in their source — running the config
load again over the state it produced reproduces that state exactly (for a
source that loads without a conversion error), and running the registry load
again over the registry and error log it produced leaves both unchanged. -/
theorem load_idempotent :
    (∀ (lines : List String) (cfg r : SystemConfig),
        (keysAL cfg.tollRates).Nodup →
        loadConfig (some lines) cfg = .ok r →
        loadConfig (some lines) r = .ok r)
    ∧ (∀ (lines : List String) (reg : List (String × Vehicle)) (errs : List String),
        (keysAL reg).Nodup →
        loadRegisteredVehicles (some lines)
            (loadRegisteredVehicles (some lines) reg errs).1
            (loadRegisteredVehicles (some lines) reg errs).2
          = loadRegisteredVehicles (some lines) reg errs) := by
  constructor
  · intro lines cfg r hnd hload
    have h1 : loadConfigLines lines cfg = .ok r := hload
    rw [loadConfigLines_eq_mkDelta] at h1
    cases hm : mkDelta lines with
    | error e =>
      rw [hm] at h1
      exact absurd h1 (by simp [Except.map])
    | ok δ =>
      rw [hm] at h1
      have hr : applyDelta δ cfg = r := by
        simpa [Except.map] using h1
      show loadConfigLines lines r = .ok r
      rw [loadConfigLines_eq_mkDelta, hm]
      show Except.ok (applyDelta δ r) = Except.ok r
      rw [← hr, applyDelta_idem δ cfg hnd]
  · intro lines reg errs hnd
    cases lines with
    | nil => rfl
    | cons hdr ds =>
      show (loadVehicleLines (loadVehicleLines reg (hdr :: ds)) (hdr :: ds), errs)
          = (loadVehicleLines reg (hdr :: ds), errs)
      rw [loadVehicleLines_cons, loadVehicleLines_cons, foldInserts_idem _ _ hnd]

/-- Witness for the C8 theorem: reloading `toll_rate_car=10.5` over its own
result reproduces it, and reloading a one-row registry over its own result
reproduces it. -/
theorem load_idempotent_witness :
    (keysAL (emptyConfig.tollRates)).Nodup
    ∧ loadConfig (some ["toll_rate_car=10.5"]) emptyConfig
        = .ok ⟨[("car", ⟨21, 2⟩)], 0, 0, 0⟩
    ∧ loadConfig (some ["toll_rate_car=10.5"]) ⟨[("car", ⟨21, 2⟩)], 0, 0, 0⟩
        = .ok ⟨[("car", ⟨21, 2⟩)], 0, 0, 0⟩
    ∧ loadRegisteredVehicles (some ["plate,rfid,balance,type", "A,R1,1.0,car"])
        (loadRegisteredVehicles (some ["plate,rfid,balance,type", "A,R1,1.0,car"]) [] []).1
        (loadRegisteredVehicles (some ["plate,rfid,balance,type", "A,R1,1.0,car"]) [] []).2
      = loadRegisteredVehicles (some ["plate,rfid,balance,type", "A,R1,1.0,car"]) [] [] :=
  ⟨by decide, by decide,
    load_idempotent.1 ["toll_rate_car=10.5"] emptyConfig
      ⟨[("car", ⟨21, 2⟩)], 0, 0, 0⟩ (by decide) (by decide),
    load_idempotent.2 ["plate,rfid,balance,type", "A,R1,1.0,car"] [] [] (by decide)⟩

/-- C1: for a vehicle resolved from the registry, charging amount `r`
succeeds exactly when `r ≤ balance`; on success the result is the new
balance `balance − r`, the registry is updated at the vehicle's rfid to that
balance, exactly one transaction record with `balance_remaining = balance − r`
is appended, and the error log is untouched; when `balance < r` the charge
returns the typed insufficient-funds result, registry and ledger are
unchanged, and exactly one failure record is logged. -/
theorem charge_success_iff_sufficient (s : SysState) (ident method : String)
    (r : Frac) (v : Vehicle) (hv : lookupVehicle s.vehicles ident = some v) :
    ((processVehicle r method ident s).1 = .accepted (v.balance - r) ↔ r ≤ v.balance)
    ∧ (r ≤ v.balance →
        (processVehicle r method ident s).2.vehicles
            = insertAL v.rfid { v with balance := v.balance - r } s.vehicles
        ∧ (processVehicle r method ident s).2.transactions
            = s.transactions ++ [⟨ident, method, r, v.balance - r⟩]
        ∧ (processVehicle r method ident s).2.errors = s.errors)
    ∧ (v.balance < r →
        (processVehicle r method ident s).1 = .rejectedInsufficientFunds
        ∧ (processVehicle r method ident s).2.vehicles = s.vehicles
        ∧ (processVehicle r method ident s).2.transactions = s.transactions
        ∧ (processVehicle r method ident s).2.errors
            = s.errors ++ ["insufficient balance: " ++ ident]) := by
  by_cases hc : r ≤ v.balance
  · have hch : charge v r = .ok (v.balance - r, { v with balance := v.balance - r }) := by
      unfold charge
      rw [if_pos hc]
    have hproc : processVehicle r method ident s
        = (.accepted (v.balance - r),
           { s with
               vehicles := insertAL v.rfid { v with balance := v.balance - r } s.vehicles
               transactions := s.transactions ++ [⟨ident, method, r, v.balance - r⟩] }) := by
      simp only [processVehicle, hv, hch]
    have hnlt : ¬ (v.balance < r) := by
      show ¬ (v.balance.num * (r.den : Int) < r.num * (v.balance.den : Int))
      exact Int.not_lt.mpr hc
    rw [hproc]
    exact ⟨⟨fun _ => hc, fun _ => rfl⟩, fun _ => ⟨rfl, rfl, rfl⟩,
      fun hlt => absurd hlt hnlt⟩
  · have hch : charge v r = .error .insufficientFunds := by
      unfold charge
      rw [if_neg hc]
    have hproc : processVehicle r method ident s
        = (.rejectedInsufficientFunds,
           { s with errors := s.errors ++ ["insufficient balance: " ++ ident] }) := by
      simp only [processVehicle, hv, hch]
    rw [hproc]
    exact ⟨⟨(fun hacc => nomatch hacc), fun hle => absurd hle hc⟩,
      fun hle => absurd hle hc, fun _ => ⟨rfl, rfl, rfl, rfl⟩⟩

/-- Witness for the C1 theorem at spec scenario A: the vehicle with balance
100 charged 50 is accepted with new balance 50, one record appended. -/
theorem charge_success_iff_sufficient_witness :
    lookupVehicle demoState.vehicles "RF1" = some demoVehicle
    ∧ (50 : Frac) ≤ demoVehicle.balance
    ∧ (processVehicle 50 "rfid" "RF1" demoState).1
        = .accepted (demoVehicle.balance - 50)
    ∧ (processVehicle 50 "rfid" "RF1" demoState).2.transactions
        = demoState.transactions ++ [⟨"RF1", "rfid", 50, demoVehicle.balance - 50⟩] :=
  ⟨by decide, by decide,
    ((charge_success_iff_sufficient demoState "RF1" "rfid" 50 demoVehicle (by decide)).1).mpr
      (by decide),
    ((charge_success_iff_sufficient demoState "RF1" "rfid" 50 demoVehicle (by decide)).2.1
      (by decide)).2.1⟩

/-- C6: an identifier that resolves to no registry entry mutates no vehicle,
writes no transaction record, attempts no charge, and produces exactly one
failure record with reason "unregistered vehicle". -/
theorem unregistered_identifier_untouched (s : SysState) (ident method : String)
    (r : Frac) (h : lookupVehicle s.vehicles ident = none) :
    (processVehicle r method ident s).1 = .rejectedUnregistered
    ∧ (processVehicle r method ident s).2.vehicles = s.vehicles
    ∧ (processVehicle r method ident s).2.transactions = s.transactions
    ∧ (processVehicle r method ident s).2.errors
        = s.errors ++ ["unregistered vehicle: " ++ ident] := by
  have hproc : processVehicle r method ident s
      = (.rejectedUnregistered,
         { s with errors := s.errors ++ ["unregistered vehicle: " ++ ident] }) := by
    simp only [processVehicle, h]
  rw [hproc]
  exact ⟨rfl, rfl, rfl, rfl⟩

/-- Witness for the C6 theorem at spec scenario D: the identifier
`UNKNOWN123` is rejected as unregistered and nothing else changes. -/
theorem unregistered_identifier_untouched_witness :
    lookupVehicle demoState.vehicles "UNKNOWN123" = none
    ∧ (processVehicle 50 "rfid" "UNKNOWN123" demoState).1 = .rejectedUnregistered
    ∧ (processVehicle 50 "rfid" "UNKNOWN123" demoState).2.vehicles = demoState.vehicles
    ∧ (processVehicle 50 "rfid" "UNKNOWN123" demoState).2.transactions
        = demoState.transactions
    ∧ (processVehicle 50 "rfid" "UNKNOWN123" demoState).2.errors
        = demoState.errors ++ ["unregistered vehicle: " ++ "UNKNOWN123"] :=
  ⟨by decide,
    unregistered_identifier_untouched demoState "UNKNOWN123" "rfid" 50 (by decide)⟩
